import Mathlib

/-!
Verification of the gled command encoder (gled.go).

The program is modelled shallowly: a Go string is a `List Char` (a list of
runes), with `goLen` computing the UTF-8 byte length that Go's `len`
returns.  Every `log.Fatalf` exit is modelled as `none`, so each fallible
function returns an `Option`.  The external calls into Go's standard
library (`fmt.Sscanf` with the two fixed color formats, `strconv.Atoi`,
`fmt.Sprintf` with the `%0<w>x` verbs, `encoding/hex.DecodeString`) are
embedded at the level of their documented rune/byte behaviour.
-/

set_option maxRecDepth 4000

namespace Gled

/-! Character classification. -/

/-- Hexadecimal digit as accepted by Go's scanning and hex decoding
(digit set 0-9, a-f, A-F). -/
def isHexDigit (c : Char) : Bool :=
  (48 ≤ c.toNat && c.toNat ≤ 57) || (97 ≤ c.toNat && c.toNat ≤ 102) ||
    (65 ≤ c.toNat && c.toNat ≤ 70)

/-- Numeric value of a hexadecimal digit character (0 on non-digits). -/
def hexVal (c : Char) : Nat :=
  if 48 ≤ c.toNat ∧ c.toNat ≤ 57 then c.toNat - 48
  else if 97 ≤ c.toNat ∧ c.toNat ≤ 102 then c.toNat - 87
  else if 65 ≤ c.toNat ∧ c.toNat ≤ 70 then c.toNat - 55
  else 0

/-- ASCII decimal digit (as in Go's strconv.Atoi loop). -/
def isDecDigit (c : Char) : Bool := 48 ≤ c.toNat && c.toNat ≤ 57

/-- Lowercase hexadecimal digit (0-9, a-f). -/
def isLowerHex (c : Char) : Bool :=
  (48 ≤ c.toNat && c.toNat ≤ 57) || (97 ≤ c.toNat && c.toNat ≤ 102)

/-- The space runes of Go fmt's scanner (the package's internal space
table), newline excluded because the scanner treats it specially. -/
def isGoSpace (c : Char) : Bool :=
  (9 ≤ c.toNat && c.toNat ≤ 13) || c.toNat = 32 || c.toNat = 133 ||
    c.toNat = 160 || c.toNat = 5760 || (8192 ≤ c.toNat && c.toNat ≤ 8202) ||
    c.toNat = 8232 || c.toNat = 8233 || c.toNat = 8239 || c.toNat = 8287 ||
    c.toNat = 12288

/-- Byte count of the UTF-8 encoding of one rune. -/
def charBytes (c : Char) : Nat :=
  if c.toNat < 128 then 1 else if c.toNat < 2048 then 2
  else if c.toNat < 65536 then 3 else 4

/-- Go's `len` on a string: the UTF-8 byte length. -/
def goLen (cs : List Char) : Nat := (cs.map charBytes).sum

/-- Go's byte-wise ASCII lowercasing of one character (spec side, used to
state the round-trip property of color parsing). -/
def goLower (c : Char) : Char :=
  if 65 ≤ c.toNat ∧ c.toNat ≤ 90 then Char.ofNat (c.toNat + 32) else c

/-! Model of the two fmt.Sscanf calls of parseHexColor.  A `%<w>x`
conversion into a uint8 field first skips space runes, then consumes
hexadecimal digits greedily; skipped spaces and consumed digits both count
toward the width `w`; at least one digit is required, and a value that
overflows the 8-bit destination is an error.  A newline in the skipped
region is an error ("unexpected newline" in Sscanf). -/

/-- Space skipping of the scanner under the remaining width budget:
returns the remaining budget and input, or `none` on a newline. -/
def skipSpace : Nat → List Char → Option (Nat × List Char)
  | 0, cs => some (0, cs)
  | b + 1, [] => some (b + 1, [])
  | b + 1, c :: cs =>
    if c.toNat = 10 then none
    else if isGoSpace c then skipSpace b cs
    else some (b + 1, c :: cs)

/-- Greedy consumption of hexadecimal digits under the width budget,
returning the accumulated value, the number of digits consumed and the
rest of the input. -/
def scanHexDigits : Nat → List Char → Nat → Nat → Nat × Nat × List Char
  | 0, cs, acc, n => (acc, n, cs)
  | _ + 1, [], acc, n => (acc, n, [])
  | b + 1, c :: cs, acc, n =>
    if isHexDigit c then scanHexDigits b cs (acc * 16 + hexVal c) (n + 1)
    else (acc, n, c :: cs)

/-- One `%<w>x` conversion into a uint8 field. -/
def scanHexField (w : Nat) (cs : List Char) : Option (Nat × List Char) :=
  match skipSpace w cs with
  | none => none
  | some (b, cs1) =>
    match scanHexDigits b cs1 0 0 with
    | (v, n, rest) => if n = 0 then none else if v ≤ 255 then some (v, rest) else none

/-- The Sscanf call with format `"#" ++ three %<w>x conversions`: the
leading `#` is a literal match; leftover input after the third conversion
is not an error. -/
def scan3 (w : Nat) (cs : List Char) : Option (Nat × Nat × Nat) :=
  match cs with
  | [] => none
  | c :: rest =>
    if c.toNat = 35 then
      (scanHexField w rest).bind fun p1 =>
        (scanHexField w p1.2).bind fun p2 =>
          (scanHexField w p2.2).map fun p3 => (p1.1, p2.1, p3.1)
    else none

/-- Model of parseHexColor (gled.go:198): dispatch on the byte length of
the argument; length 7 scans `#%02x%02x%02x`, length 4 scans `#%1x%1x%1x`
and multiplies each nibble by 17 in uint8 arithmetic; every other length
is an error.  The alpha channel is constant and ignored by the caller, so
it is omitted here. -/
def parseHexColor (cs : List Char) : Option (Nat × Nat × Nat) :=
  if goLen cs = 7 then scan3 2 cs
  else if goLen cs = 4 then
    (scan3 1 cs).map fun rgb => (rgb.1 * 17 % 256, rgb.2.1 * 17 % 256, rgb.2.2 * 17 % 256)
  else none

/-! Hexadecimal formatting, modelling Go fmt's `%0<w>x` verb on a
nonnegative integer: lowercase digits, zero-padded on the left to at
least `w` characters. -/

/-- The lowercase hexadecimal digit character for a value below 16. -/
def hexDigitChar (n : Nat) : Char :=
  if n < 10 then Char.ofNat (48 + n) else Char.ofNat (87 + n)

/-- Base-16 digits under a fuel bound (any fuel at least the value is
exact; structural recursion keeps the function computable by the
kernel). -/
def hexDigitsAux : Nat → Nat → List Char
  | 0, n => [hexDigitChar n]
  | f + 1, n =>
    if n < 16 then [hexDigitChar n]
    else hexDigitsAux f (n / 16) ++ [hexDigitChar (n % 16)]

/-- Base-16 digits of a natural number, most significant first. -/
def hexDigits (n : Nat) : List Char := hexDigitsAux n n

/-- Go fmt's `%0<w>x` of a nonnegative integer. -/
def hexPad (w n : Nat) : List Char :=
  List.replicate (w - (hexDigits n).length) '0' ++ hexDigits n

/-! Model of strconv.Atoi, restricted to the 64-bit `int` of the target:
an optional single leading sign followed by at least one ASCII decimal
digit and nothing else; a value outside the int64 range is an error. -/

/-- Value of a decimal digit string, accumulating from `a` (the loop of
Atoi's fast path). -/
def decValueFrom (a : Nat) : List Char → Nat
  | [] => a
  | c :: cs => decValueFrom (a * 10 + (c.toNat - 48)) cs

/-- Value of a decimal digit string. -/
def decValue (cs : List Char) : Nat := decValueFrom 0 cs

/-- Unsigned part of Atoi after an explicit or absent `+`. -/
def atoiDigitsPos (ds : List Char) : Option Int :=
  if ds = [] then none
  else if ds.all isDecDigit then
    if decValue ds ≤ 2 ^ 63 - 1 then some (decValue ds : Int) else none
  else none

/-- Unsigned part of Atoi after a `-`. -/
def atoiDigitsNeg (ds : List Char) : Option Int :=
  if ds = [] then none
  else if ds.all isDecDigit then
    if decValue ds ≤ 2 ^ 63 then some (-(decValue ds : Int)) else none
  else none

/-- Model of strconv.Atoi on a 64-bit platform. -/
def atoi (cs : List Char) : Option Int :=
  match cs with
  | [] => none
  | c :: t =>
    if c.toNat = 45 then atoiDigitsNeg t
    else if c.toNat = 43 then atoiDigitsPos t
    else atoiDigitsPos (c :: t)

/-! The four argument parsers of gled.go.  `none` models the
flag.Usage() print followed by the log.Fatalf exit. -/

/-- True when the argument already starts with `#`
(strings.HasPrefix(colorArg, "#") at gled.go:149). -/
def startsWithHash : List Char → Bool
  | c :: _ => c.toNat = 35
  | [] => false

/-- Model of parseColor (gled.go:144): the empty argument is an error;
a missing `#` is prepended; the channels of a successful parseHexColor
are printed with `%02x%02x%02x`. -/
def parseColor (cs : List Char) : Option (List Char) :=
  if cs = [] then none
  else
    match parseHexColor (if startsWithHash cs then cs else '#' :: cs) with
    | none => none
    | some rgb => some (hexPad 2 rgb.1 ++ hexPad 2 rgb.2.1 ++ hexPad 2 rgb.2.2)

/-- Model of parseRate (gled.go:160): the empty argument means the
default rate 10000; otherwise the argument must be an integer in
[100, 60000]; the result is the `%04x` encoding. -/
def parseRate (cs : List Char) : Option (List Char) :=
  if cs = [] then some (hexPad 4 10000)
  else
    match atoi cs with
    | none => none
    | some r => if r < 100 ∨ r > 60000 then none else some (hexPad 4 r.toNat)

/-- Model of parseBrightness (gled.go:179): the empty argument means the
default brightness 100; otherwise the argument must be an integer in
[1, 100]; the result is the `%02x` encoding. -/
def parseBrightness (cs : List Char) : Option (List Char) :=
  if cs = [] then some (hexPad 2 100)
  else
    match atoi cs with
    | none => none
    | some b => if b < 1 ∨ b > 100 then none else some (hexPad 2 b.toNat)

/-- Model of parseToggle (gled.go:130): exactly "on" is "01" and exactly
"off" is "02"; everything else is an error. -/
def parseToggle (cs : List Char) : Option (List Char) :=
  if cs = "on".data then some "01".data
  else if cs = "off".data then some "02".data
  else none

/-! The command pipeline. -/

/-- The single USB control transfer of sendCommand (gled.go:122):
dev.Control(0x21, 0x09, 0x0211, 0x01, payload). -/
structure ControlTransfer where
  requestType : Nat
  request : Nat
  value : Nat
  index : Nat
  payload : List Nat
deriving DecidableEq

/-- Model of encoding/hex.DecodeString: pairs of hexadecimal digits to
bytes; an odd length or a non-hexadecimal character is an error. -/
def hexDecode : List Char → Option (List Nat)
  | [] => some []
  | [_] => none
  | c1 :: c2 :: rest =>
    if isHexDigit c1 && isHexDigit c2 then
      (hexDecode rest).map fun bs => (hexVal c1 * 16 + hexVal c2) :: bs
    else none

/-- The outer envelope of gled.go:17:
fmt.Sprintf("11ff0e%s000000000000", data). -/
def envelope (body : List Char) : List Char :=
  "11ff0e".data ++ body ++ "000000000000".data

/-- Model of sendCommand (gled.go:87): build the enveloped hexadecimal
string, decode it (a decoding failure is a fatal exit) and issue the
control transfer with the fixed parameters. -/
def sendCommand (body : List Char) : Option ControlTransfer :=
  match hexDecode (envelope body) with
  | none => none
  | some payload => some ⟨0x21, 0x09, 0x0211, 0x01, payload⟩

/-- Model of setSolid (gled.go:69). -/
def setSolid (a1 : List Char) : Option ControlTransfer :=
  match parseColor a1 with
  | none => none
  | some c => sendCommand ("3b0001".data ++ c ++ "0000000000".data)

/-- Model of setCycle (gled.go:74). -/
def setCycle (a1 a2 : List Char) : Option ControlTransfer :=
  match parseRate a1 with
  | none => none
  | some rate =>
    match parseBrightness a2 with
    | none => none
    | some brightness =>
      sendCommand ("3b0002".data ++ "0000000000".data ++ rate ++ brightness)

/-- Model of setBreathe (gled.go:80). -/
def setBreathe (a1 a2 a3 : List Char) : Option ControlTransfer :=
  match parseColor a1 with
  | none => none
  | some c =>
    match parseRate a2 with
    | none => none
    | some rate =>
      match parseBrightness a3 with
      | none => none
      | some brightness =>
        sendCommand ("3b0003".data ++ c ++ rate ++ "00".data ++ brightness ++ "00".data)

/-- Model of setIntro (gled.go:64). -/
def setIntro (a1 : List Char) : Option ControlTransfer :=
  match parseToggle a1 with
  | none => none
  | some toggle => sendCommand ("5b0001".data ++ toggle ++ "00000000000000".data)

/-- Model of main's mode dispatch (gled.go:49).  flag.Arg yields the empty
string for a missing positional argument; an unknown mode prints the usage
text and exits fatally (`none`). -/
def runGled (mode a1 a2 a3 : List Char) : Option ControlTransfer :=
  if mode = "solid".data then setSolid a1
  else if mode = "cycle".data then setCycle a1 a2
  else if mode = "breathe".data then setBreathe a1 a2 a3
  else if mode = "intro".data then setIntro a1
  else none

/-- A run of the program together with the libusb debug level handed to
ctx.Debug (gled.go:99); the level only configures the USB library's
diagnostic verbosity and is recorded next to the transfer. -/
structure UsbSession where
  debugLevel : Nat
  transfer : ControlTransfer
deriving DecidableEq

/-- The program with the value of the -debug flag made explicit. -/
def runGledDebug (dbg : Nat) (mode a1 a2 a3 : List Char) : Option UsbSession :=
  match runGled mode a1 a2 a3 with
  | none => none
  | some t => some ⟨dbg, t⟩

/-- The usage text printed by flag.Usage (gled.go:28). -/
def usageText : String :=
  "Logitech G102 and G203 Prodigy Mouse LED control\n\nUsage:\n  gled solid <color>                         Solid color mode\n  gled cycle <rate> <brightness>             Cycle through all colors\n  gled breathe <color> <rate> <brightness>   Single color breathing\n  gled intro <toggle>                        Enable/disable startup effect\n\nArguments:\n  color        RRGGBB (RGB hex value)\n  rate         100-60000 (Number of milliseconds. Default: 10000ms)\n  brightness   0-100 (Percentage. Default: 100%)\n  toggle       on|off\n\nFlags:\n  gled -debug <0..3> ...                     Debug level for libusb. Default: 0\n"

/-- The decimal digit character for a value below 10 (spec side). -/
def decDigitChar (n : Nat) : Char := Char.ofNat (48 + n)

/-- Base-10 digits under a fuel bound (spec side). -/
def decReprAux : Nat → Nat → List Char
  | 0, n => [decDigitChar n]
  | f + 1, n =>
    if n < 10 then [decDigitChar n]
    else decReprAux f (n / 10) ++ [decDigitChar (n % 10)]

/-- Decimal representation of a natural number, most significant digit
first (spec side: the base-10 string a user passes for an integer
argument). -/
def decRepr (n : Nat) : List Char := decReprAux n n

/-- Base-16 value of a hexadecimal digit string, accumulating from `a`
(spec side: used to state that an encoding is the base-16 representation
of its integer). -/
def hexValueFrom (a : Nat) : List Char → Nat
  | [] => a
  | c :: cs => hexValueFrom (a * 16 + hexVal c) cs

/-- Base-16 value of a hexadecimal digit string. -/
def hexValue (cs : List Char) : Nat := hexValueFrom 0 cs

/-- The count of hexadecimal digits offered by a color argument: its byte
length, not counting a leading `#` (spec side, used to state which
argument lengths are rejected). -/
def colorDigitLen (cs : List Char) : Nat :=
  if startsWithHash cs then goLen cs - 1 else goLen cs

/-- The session produced by `gled -debug 3 intro on` (a concrete example
used to exercise the transfer-parameter facts). -/
def sampleSession : UsbSession :=
  ⟨3, ⟨0x21, 0x09, 0x0211, 0x01,
    [17, 255, 14, 91, 0, 1, 1, 0, 0, 0, 0, 0, 0, 0, 0, 0, 0, 0, 0, 0]⟩⟩

/-! Character-level facts. -/

theorem char_eq_of_toNat {c : Char} {n : Nat} (h : c.toNat = n) : c = Char.ofNat n := by
  rw [← h, Char.ofNat_toNat]

theorem toNat_charOfNat {n : Nat} (h : n < 55296) : (Char.ofNat n).toNat = n := by
  have hv : n.isValidChar := Or.inl h
  rw [Char.ofNat, dif_pos hv]
  rfl

theorem isHexDigit_iff {c : Char} : isHexDigit c = true ↔
    (48 ≤ c.toNat ∧ c.toNat ≤ 57) ∨ (97 ≤ c.toNat ∧ c.toNat ≤ 102) ∨
      (65 ≤ c.toNat ∧ c.toNat ≤ 70) := by
  simp only [isHexDigit, Bool.or_eq_true, Bool.and_eq_true, decide_eq_true_eq]
  tauto

theorem isDecDigit_iff {c : Char} : isDecDigit c = true ↔
    48 ≤ c.toNat ∧ c.toNat ≤ 57 := by
  simp [isDecDigit, Bool.and_eq_true, decide_eq_true_eq]

theorem isLowerHex_iff {c : Char} : isLowerHex c = true ↔
    (48 ≤ c.toNat ∧ c.toNat ≤ 57) ∨ (97 ≤ c.toNat ∧ c.toNat ≤ 102) := by
  simp [isLowerHex, Bool.or_eq_true, Bool.and_eq_true, decide_eq_true_eq]

theorem isHexDigit_of_isLowerHex {c : Char} (h : isLowerHex c = true) :
    isHexDigit c = true := by
  rw [isLowerHex_iff] at h
  rw [isHexDigit_iff]
  omega

theorem hexVal_le (c : Char) : hexVal c ≤ 15 := by
  unfold hexVal
  repeat' split
  all_goals omega

/-- A hexadecimal digit is not space, newline, `#`, a sign, and is a
1-byte rune. -/
theorem isHexDigit_props {c : Char} (h : isHexDigit c = true) :
    isGoSpace c = false ∧ c.toNat ≠ 10 ∧ c.toNat ≠ 35 ∧ c.toNat < 128 := by
  rw [isHexDigit_iff] at h
  have hs : ¬ (isGoSpace c = true) := by
    simp only [isGoSpace, Bool.or_eq_true, Bool.and_eq_true, decide_eq_true_eq]
    omega
  exact ⟨Bool.eq_false_iff.mpr hs, by omega, by omega, by omega⟩

theorem charBytes_of_lt {c : Char} (h : c.toNat < 128) : charBytes c = 1 := by
  unfold charBytes
  rw [if_pos h]

theorem charBytes_pos (c : Char) : 1 ≤ charBytes c := by
  unfold charBytes
  repeat' split
  all_goals omega

theorem goLen_nil : goLen [] = 0 := rfl

theorem goLen_cons (c : Char) (cs : List Char) :
    goLen (c :: cs) = charBytes c + goLen cs := by
  simp [goLen]

theorem toNat_hexDigitChar {n : Nat} (h : n ≤ 15) :
    (hexDigitChar n).toNat = if n < 10 then 48 + n else 87 + n := by
  unfold hexDigitChar
  split
  · exact toNat_charOfNat (by omega)
  · exact toNat_charOfNat (by omega)

theorem isLowerHex_hexDigitChar {n : Nat} (h : n ≤ 15) :
    isLowerHex (hexDigitChar n) = true := by
  rw [isLowerHex_iff, toNat_hexDigitChar h]
  split
  all_goals omega

theorem hexVal_hexDigitChar {n : Nat} (h : n ≤ 15) :
    hexVal (hexDigitChar n) = n := by
  unfold hexVal
  rw [toNat_hexDigitChar h]
  repeat' split
  all_goals omega

/-- Printing the value of a hexadecimal digit reproduces that digit in
lowercase. -/
theorem hexDigitChar_hexVal {c : Char} (h : isHexDigit c = true) :
    hexDigitChar (hexVal c) = goLower c := by
  rw [isHexDigit_iff] at h
  rcases h with h | h | h
  · have hv : hexVal c = c.toNat - 48 := by
      unfold hexVal
      rw [if_pos h]
    rw [hv]
    unfold hexDigitChar goLower
    rw [if_pos (by omega), if_neg (by omega),
      show 48 + (c.toNat - 48) = c.toNat by omega, Char.ofNat_toNat]
  · have hv : hexVal c = c.toNat - 87 := by
      unfold hexVal
      rw [if_neg (by omega), if_pos h]
    rw [hv]
    unfold hexDigitChar goLower
    rw [if_neg (by omega), if_neg (by omega),
      show 87 + (c.toNat - 87) = c.toNat by omega, Char.ofNat_toNat]
  · have hv : hexVal c = c.toNat - 55 := by
      unfold hexVal
      rw [if_neg (by omega), if_neg (by omega), if_pos h]
    rw [hv]
    unfold hexDigitChar goLower
    rw [if_neg (by omega), if_pos (by omega),
      show 87 + (c.toNat - 55) = c.toNat + 32 by omega]

/-! Facts about the `%0<w>x` formatter. -/

theorem hexDigitsAux_canon : ∀ f n : Nat, n ≤ f → hexDigitsAux f n = hexDigitsAux n n := by
  intro f
  induction f using Nat.strong_induction_on with
  | _ f ih =>
    intro n hn
    cases f with
    | zero =>
      interval_cases n
      rfl
    | succ f' =>
      by_cases h16 : n < 16
      · simp only [hexDigitsAux, if_pos h16]
        cases n with
        | zero => rfl
        | succ m => simp only [hexDigitsAux, if_pos h16]
      · obtain ⟨m, rfl⟩ : ∃ m, n = m + 1 := ⟨n - 1, by omega⟩
        simp only [hexDigitsAux, if_neg h16]
        rw [ih f' (by omega) _ (by omega), ih m (by omega) _ (by omega)]

theorem hexDigits_eq (n : Nat) : hexDigits n =
    if n < 16 then [hexDigitChar n] else hexDigits (n / 16) ++ [hexDigitChar (n % 16)] := by
  show hexDigitsAux n n = _
  by_cases h16 : n < 16
  · rw [if_pos h16]
    cases n with
    | zero => rfl
    | succ m => simp only [hexDigitsAux, if_pos h16]
  · rw [if_neg h16]
    obtain ⟨m, rfl⟩ : ∃ m, n = m + 1 := ⟨n - 1, by omega⟩
    simp only [hexDigitsAux, if_neg h16]
    rw [hexDigitsAux_canon m _ (by omega)]
    rfl

theorem hexDigits_ne_nil (n : Nat) : hexDigits n ≠ [] := by
  rw [hexDigits_eq]
  split
  · simp
  · simp

theorem hexDigits_length_pos (n : Nat) : 1 ≤ (hexDigits n).length :=
  List.length_pos.mpr (hexDigits_ne_nil n)

theorem hexDigits_length_le {k : Nat} : ∀ {n : Nat}, n < 16 ^ (k + 1) →
    (hexDigits n).length ≤ k + 1 := by
  induction k with
  | zero =>
    intro n h
    rw [hexDigits_eq, if_pos (by omega)]
    simp
  | succ k ih =>
    intro n h
    rw [hexDigits_eq]
    split
    · simp
    · have hdiv : n / 16 < 16 ^ (k + 1) := by
        rw [Nat.div_lt_iff_lt_mul (by omega)]
        calc n < 16 ^ (k + 1 + 1) := h
        _ = 16 ^ (k + 1) * 16 := by ring
      have := ih hdiv
      simp only [List.length_append, List.length_cons, List.length_nil]
      omega

theorem hexDigits_all_lower : ∀ n : Nat, (hexDigits n).all isLowerHex = true := by
  intro n
  induction n using Nat.strong_induction_on with
  | _ n ih =>
    rw [hexDigits_eq]
    split
    · next h =>
      simp [isLowerHex_hexDigitChar (by omega : n ≤ 15)]
    · next h =>
      rw [List.all_append]
      have h1 := ih (n / 16) (by omega)
      have h2 : isLowerHex (hexDigitChar (n % 16)) = true :=
        isLowerHex_hexDigitChar (by omega)
      simp [h1, h2]

theorem hexValueFrom_append (a : Nat) (xs ys : List Char) :
    hexValueFrom a (xs ++ ys) = hexValueFrom (hexValueFrom a xs) ys := by
  induction xs generalizing a with
  | nil => rfl
  | cons c cs ih => simp [hexValueFrom, ih]

theorem hexValueFrom_hexDigits : ∀ n : Nat, ∀ a : Nat,
    hexValueFrom a (hexDigits n) = a * 16 ^ (hexDigits n).length + n := by
  intro n
  induction n using Nat.strong_induction_on with
  | _ n ih =>
    intro a
    rw [hexDigits_eq]
    split
    · next h =>
      simp [hexValueFrom, hexVal_hexDigitChar (by omega : n ≤ 15)]
    · next h =>
      rw [hexValueFrom_append, ih (n / 16) (by omega)]
      simp only [hexValueFrom, hexVal_hexDigitChar (by omega : n % 16 ≤ 15),
        List.length_append, List.length_cons, List.length_nil]
      have e : (hexDigits (n / 16)).length + (0 + 1) = (hexDigits (n / 16)).length + 1 :=
        rfl
      rw [e, pow_succ, ← mul_assoc]
      generalize a * 16 ^ (hexDigits (n / 16)).length = A
      omega

theorem hexValueFrom_replicate_zero (k : Nat) (xs : List Char) :
    hexValueFrom 0 (List.replicate k '0' ++ xs) = hexValueFrom 0 xs := by
  induction k with
  | zero => rfl
  | succ k ih =>
    rw [List.replicate_succ, List.cons_append]
    show hexValueFrom (0 * 16 + hexVal '0') _ = _
    have : hexVal '0' = 0 := by decide
    rw [this]
    simpa using ih

theorem hexValue_hexPad (w n : Nat) : hexValue (hexPad w n) = n := by
  unfold hexValue hexPad
  rw [hexValueFrom_replicate_zero, hexValueFrom_hexDigits]
  simp

theorem hexPad_length {w n : Nat} (h : (hexDigits n).length ≤ w) :
    (hexPad w n).length = w := by
  unfold hexPad
  simp only [List.length_append, List.length_replicate]
  omega

theorem hexPad_all_lower (w n : Nat) : (hexPad w n).all isLowerHex = true := by
  unfold hexPad
  rw [List.all_append]
  have h0 : (List.replicate (w - (hexDigits n).length) '0').all isLowerHex = true := by
    rw [List.all_eq_true]
    intro c hc
    rw [List.eq_of_mem_replicate hc]
    decide
  simp [h0, hexDigits_all_lower]

theorem hexPad_all_hex (w n : Nat) : (hexPad w n).all isHexDigit = true := by
  rw [List.all_eq_true]
  intro c hc
  have h := hexPad_all_lower w n
  rw [List.all_eq_true] at h
  exact isHexDigit_of_isLowerHex (h c hc)

/-- The `%02x` encoding of a byte value is its two hexadecimal digits. -/
theorem hexPad_two {n : Nat} (h : n ≤ 255) :
    hexPad 2 n = [hexDigitChar (n / 16), hexDigitChar (n % 16)] := by
  unfold hexPad
  by_cases h16 : n < 16
  · have hd : hexDigits n = [hexDigitChar n] := by
      rw [hexDigits_eq, if_pos h16]
    rw [hd]
    have hdiv : n / 16 = 0 := by omega
    have hmod : n % 16 = n := by omega
    rw [hdiv, hmod]
    have : hexDigitChar 0 = '0' := by decide
    simp [this]
  · have hd : hexDigits n = [hexDigitChar (n / 16), hexDigitChar (n % 16)] := by
      rw [hexDigits_eq, if_neg h16]
      have hlow : hexDigits (n / 16) = [hexDigitChar (n / 16)] := by
        rw [hexDigits_eq, if_pos (by omega)]
      rw [hlow]
      rfl
    rw [hd]
    simp

/-! Facts about the decimal representation and the Atoi model. -/

theorem decReprAux_canon : ∀ f n : Nat, n ≤ f → decReprAux f n = decReprAux n n := by
  intro f
  induction f using Nat.strong_induction_on with
  | _ f ih =>
    intro n hn
    cases f with
    | zero =>
      interval_cases n
      rfl
    | succ f' =>
      by_cases h10 : n < 10
      · simp only [decReprAux, if_pos h10]
        cases n with
        | zero => rfl
        | succ m => simp only [decReprAux, if_pos h10]
      · obtain ⟨m, rfl⟩ : ∃ m, n = m + 1 := ⟨n - 1, by omega⟩
        simp only [decReprAux, if_neg h10]
        rw [ih f' (by omega) _ (by omega), ih m (by omega) _ (by omega)]

theorem decRepr_eq (n : Nat) : decRepr n =
    if n < 10 then [decDigitChar n] else decRepr (n / 10) ++ [decDigitChar (n % 10)] := by
  show decReprAux n n = _
  by_cases h10 : n < 10
  · rw [if_pos h10]
    cases n with
    | zero => rfl
    | succ m => simp only [decReprAux, if_pos h10]
  · rw [if_neg h10]
    obtain ⟨m, rfl⟩ : ∃ m, n = m + 1 := ⟨n - 1, by omega⟩
    simp only [decReprAux, if_neg h10]
    rw [decReprAux_canon m _ (by omega)]
    rfl

theorem decRepr_ne_nil (n : Nat) : decRepr n ≠ [] := by
  rw [decRepr_eq]
  split
  · simp
  · simp

theorem toNat_decDigit {m : Nat} (h : m ≤ 9) :
    (decDigitChar m).toNat = 48 + m := by
  unfold decDigitChar
  exact toNat_charOfNat (by omega)

theorem decRepr_all_digits : ∀ n : Nat, (decRepr n).all isDecDigit = true := by
  intro n
  induction n using Nat.strong_induction_on with
  | _ n ih =>
    rw [decRepr_eq]
    split
    · next h =>
      have : isDecDigit (decDigitChar n) = true := by
        rw [isDecDigit_iff, toNat_decDigit (by omega)]
        omega
      simp [this]
    · next h =>
      rw [List.all_append]
      have h1 := ih (n / 10) (by omega)
      have h2 : isDecDigit (decDigitChar (n % 10)) = true := by
        rw [isDecDigit_iff, toNat_decDigit (by omega)]
        omega
      simp [h1, h2]

theorem decValueFrom_append (a : Nat) (xs ys : List Char) :
    decValueFrom a (xs ++ ys) = decValueFrom (decValueFrom a xs) ys := by
  induction xs generalizing a with
  | nil => rfl
  | cons c cs ih =>
    rw [List.cons_append]
    show decValueFrom (a * 10 + (c.toNat - 48)) (cs ++ ys) = _
    rw [ih]
    rfl

theorem decValueFrom_cons (a : Nat) (c : Char) (cs : List Char) :
    decValueFrom a (c :: cs) = decValueFrom (a * 10 + (c.toNat - 48)) cs := rfl

theorem decValueFrom_nil (a : Nat) : decValueFrom a [] = a := rfl

theorem decValueFrom_decRepr : ∀ n : Nat, ∀ a : Nat,
    decValueFrom a (decRepr n) = a * 10 ^ (decRepr n).length + n := by
  intro n
  induction n using Nat.strong_induction_on with
  | _ n ih =>
    intro a
    rw [decRepr_eq]
    split
    · next h =>
      rw [decValueFrom_cons, decValueFrom_nil, toNat_decDigit (by omega : n ≤ 9)]
      simp only [List.length_cons, List.length_nil, pow_one]
      omega
    · next h =>
      rw [decValueFrom_append, ih (n / 10) (by omega), decValueFrom_cons,
        decValueFrom_nil, toNat_decDigit (by omega : n % 10 ≤ 9)]
      simp only [List.length_append, List.length_cons, List.length_nil]
      have e : (decRepr (n / 10)).length + (0 + 1) = (decRepr (n / 10)).length + 1 :=
        rfl
      rw [e, pow_succ, ← mul_assoc]
      generalize a * 10 ^ (decRepr (n / 10)).length = A
      omega

theorem decValue_decRepr (n : Nat) : decValue (decRepr n) = n := by
  unfold decValue
  rw [decValueFrom_decRepr]
  simp

/-- Atoi parses the canonical decimal representation of any value inside
the int64 range back to that value. -/
theorem atoi_decRepr {n : Nat} (h : n ≤ 2 ^ 63 - 1) : atoi (decRepr n) = some (n : Int) := by
  cases hd : decRepr n with
  | nil => exact absurd hd (decRepr_ne_nil n)
  | cons c t =>
    have hall := decRepr_all_digits n
    rw [hd, List.all_cons, Bool.and_eq_true] at hall
    have hc := isDecDigit_iff.mp hall.1
    simp only [atoi]
    rw [if_neg (by omega), if_neg (by omega)]
    unfold atoiDigitsPos
    rw [if_neg (by simp), if_pos (by rw [List.all_cons]; simp [hall.1, hall.2])]
    have hv : decValue (c :: t) = n := by
      rw [← hd, decValue_decRepr]
    rw [hv, if_pos h]

/-! Facts about the Sscanf scanner model. -/

theorem skipSpace_no_skip {b : Nat} {c : Char} (cs : List Char)
    (hn : c.toNat ≠ 10) (hs : isGoSpace c = false) :
    skipSpace (b + 1) (c :: cs) = some (b + 1, c :: cs) := by
  unfold skipSpace
  rw [if_neg hn, hs]
  rfl

theorem scanHexDigits_zero (cs : List Char) (acc n : Nat) :
    scanHexDigits 0 cs acc n = (acc, n, cs) := by
  unfold scanHexDigits
  rfl

theorem scanHexDigits_hex {b : Nat} {c : Char} (cs : List Char) (acc n : Nat)
    (h : isHexDigit c = true) :
    scanHexDigits (b + 1) (c :: cs) acc n =
      scanHexDigits b cs (acc * 16 + hexVal c) (n + 1) := by
  conv_lhs => unfold scanHexDigits
  rw [h, if_pos rfl]

/-- A `%02x` conversion on input beginning with two hexadecimal digits
consumes exactly those digits. -/
theorem scanHexField_two {c1 c2 : Char} (rest : List Char)
    (h1 : isHexDigit c1 = true) (h2 : isHexDigit c2 = true) :
    scanHexField 2 (c1 :: c2 :: rest) = some (hexVal c1 * 16 + hexVal c2, rest) := by
  obtain ⟨hs1, hn1, -, -⟩ := isHexDigit_props h1
  have hv1 := hexVal_le c1
  have hv2 := hexVal_le c2
  have e1 : skipSpace 2 (c1 :: c2 :: rest) = some (2, c1 :: c2 :: rest) :=
    skipSpace_no_skip (c2 :: rest) hn1 hs1
  have e2 : scanHexDigits 2 (c1 :: c2 :: rest) 0 0 =
      (hexVal c1 * 16 + hexVal c2, 2, rest) := by
    rw [show (2 : Nat) = 1 + 1 from rfl, scanHexDigits_hex _ _ _ h1,
      scanHexDigits_hex _ _ _ h2, scanHexDigits_zero]
    norm_num
  unfold scanHexField
  rw [e1]
  show (match scanHexDigits 2 (c1 :: c2 :: rest) 0 0 with
    | (v, n, rest) => if n = 0 then none else if v ≤ 255 then some (v, rest) else none) = _
  rw [e2]
  show (if (2 : Nat) = 0 then none
    else if hexVal c1 * 16 + hexVal c2 ≤ 255 then some (hexVal c1 * 16 + hexVal c2, rest)
    else none) = _
  rw [if_neg (by omega), if_pos (by omega)]

/-- A `%1x` conversion on input beginning with a hexadecimal digit
consumes exactly that digit. -/
theorem scanHexField_one {c : Char} (rest : List Char) (h : isHexDigit c = true) :
    scanHexField 1 (c :: rest) = some (hexVal c, rest) := by
  obtain ⟨hs, hn, -, -⟩ := isHexDigit_props h
  have hv := hexVal_le c
  have e1 : skipSpace 1 (c :: rest) = some (1, c :: rest) :=
    skipSpace_no_skip rest hn hs
  have e2 : scanHexDigits 1 (c :: rest) 0 0 = (hexVal c, 1, rest) := by
    rw [show (1 : Nat) = 0 + 1 from rfl, scanHexDigits_hex _ _ _ h, scanHexDigits_zero]
    norm_num
  unfold scanHexField
  rw [e1]
  show (match scanHexDigits 1 (c :: rest) 0 0 with
    | (v, n, rest) => if n = 0 then none else if v ≤ 255 then some (v, rest) else none) = _
  rw [e2]
  show (if (1 : Nat) = 0 then none
    else if hexVal c ≤ 255 then some (hexVal c, rest) else none) = _
  rw [if_neg (by omega), if_pos (by omega)]

theorem scanHexField_le {w : Nat} {cs : List Char} {v : Nat} {rest : List Char}
    (h : scanHexField w cs = some (v, rest)) : v ≤ 255 := by
  unfold scanHexField at h
  cases hss : skipSpace w cs with
  | none =>
    rw [hss] at h
    exact absurd h (by simp)
  | some p =>
    rw [hss] at h
    obtain ⟨b, cs1⟩ := p
    revert h
    show (match scanHexDigits b cs1 0 0 with
      | (v, n, rest) => if n = 0 then none else if v ≤ 255 then some (v, rest) else none) =
        some (v, rest) → v ≤ 255
    obtain ⟨v', n', rest'⟩ := scanHexDigits b cs1 0 0
    intro h
    rw [apply_ite (fun o => o = some (v, rest))] at h
    by_cases hn : n' = 0
    · rw [if_pos hn] at h
      exact absurd h (by simp)
    · rw [if_neg hn] at h
      by_cases hv : v' ≤ 255
      · rw [if_pos hv] at h
        obtain ⟨rfl, -⟩ := Prod.mk.injEq .. ▸ Option.some.injEq .. ▸ h
        exact hv
      · rw [if_neg hv] at h
        exact absurd h (by simp)

/-! The three-field scans of the two Sscanf formats. -/

theorem scan3_two {c1 c2 c3 c4 c5 c6 : Char}
    (h1 : isHexDigit c1 = true) (h2 : isHexDigit c2 = true)
    (h3 : isHexDigit c3 = true) (h4 : isHexDigit c4 = true)
    (h5 : isHexDigit c5 = true) (h6 : isHexDigit c6 = true) :
    scan3 2 ('#' :: [c1, c2, c3, c4, c5, c6]) =
      some (hexVal c1 * 16 + hexVal c2, hexVal c3 * 16 + hexVal c4,
        hexVal c5 * 16 + hexVal c6) := by
  simp only [scan3]
  rw [if_pos (show ('#').toNat = 35 by decide),
    scanHexField_two _ h1 h2, Option.some_bind,
    scanHexField_two _ h3 h4, Option.some_bind,
    scanHexField_two _ h5 h6, Option.map_some']

theorem scan3_one {c1 c2 c3 : Char}
    (h1 : isHexDigit c1 = true) (h2 : isHexDigit c2 = true)
    (h3 : isHexDigit c3 = true) :
    scan3 1 ('#' :: [c1, c2, c3]) = some (hexVal c1, hexVal c2, hexVal c3) := by
  simp only [scan3]
  rw [if_pos (show ('#').toNat = 35 by decide),
    scanHexField_one _ h1, Option.some_bind,
    scanHexField_one _ h2, Option.some_bind,
    scanHexField_one _ h3, Option.map_some']

theorem scan3_le {w : Nat} {cs : List Char} {r g b : Nat}
    (h : scan3 w cs = some (r, g, b)) : r ≤ 255 ∧ g ≤ 255 ∧ b ≤ 255 := by
  cases cs with
  | nil =>
    rw [show scan3 w [] = none from rfl] at h
    exact absurd h (by simp)
  | cons c rest =>
    simp only [scan3] at h
    by_cases hc : c.toNat = 35
    · rw [if_pos hc] at h
      cases e1 : scanHexField w rest with
      | none =>
        rw [e1] at h
        exact absurd h (by simp)
      | some p1 =>
        rw [e1, Option.some_bind] at h
        cases e2 : scanHexField w p1.2 with
        | none =>
          rw [e2] at h
          exact absurd h (by simp)
        | some p2 =>
          rw [e2, Option.some_bind] at h
          cases e3 : scanHexField w p2.2 with
          | none =>
            rw [e3] at h
            exact absurd h (by simp)
          | some p3 =>
            rw [e3, Option.map_some'] at h
            obtain ⟨p1a, p1b⟩ := p1
            obtain ⟨p2a, p2b⟩ := p2
            obtain ⟨p3a, p3b⟩ := p3
            simp only [Option.some.injEq, Prod.mk.injEq] at h
            obtain ⟨rfl, rfl, rfl⟩ := h
            exact ⟨scanHexField_le e1, scanHexField_le e2, scanHexField_le e3⟩
    · rw [if_neg hc] at h
      exact absurd h (by simp)

/-! Facts about parseColor. -/

theorem startsWithHash_false {c : Char} (cs : List Char) (h : c.toNat ≠ 35) :
    startsWithHash (c :: cs) = false := by
  show decide (c.toNat = 35) = false
  exact decide_eq_false h

theorem goLen_hex_cons {c : Char} (cs : List Char) (h : isHexDigit c = true) :
    goLen (c :: cs) = 1 + goLen cs := by
  obtain ⟨-, -, -, hlt⟩ := isHexDigit_props h
  rw [goLen_cons, charBytes_of_lt hlt]

theorem parseHexColor_wrong_length {cs : List Char}
    (h7 : goLen cs ≠ 7) (h4 : goLen cs ≠ 4) : parseHexColor cs = none := by
  unfold parseHexColor
  rw [if_neg h7, if_neg h4]

theorem parseHexColor_six {c1 c2 c3 c4 c5 c6 : Char}
    (h1 : isHexDigit c1 = true) (h2 : isHexDigit c2 = true)
    (h3 : isHexDigit c3 = true) (h4 : isHexDigit c4 = true)
    (h5 : isHexDigit c5 = true) (h6 : isHexDigit c6 = true) :
    parseHexColor ('#' :: [c1, c2, c3, c4, c5, c6]) =
      some (hexVal c1 * 16 + hexVal c2, hexVal c3 * 16 + hexVal c4,
        hexVal c5 * 16 + hexVal c6) := by
  have hlen : goLen ('#' :: [c1, c2, c3, c4, c5, c6]) = 7 := by
    rw [goLen_cons, charBytes_of_lt (by decide), goLen_hex_cons _ h1,
      goLen_hex_cons _ h2, goLen_hex_cons _ h3, goLen_hex_cons _ h4,
      goLen_hex_cons _ h5, goLen_hex_cons _ h6, goLen_nil]
  unfold parseHexColor
  rw [if_pos hlen, scan3_two h1 h2 h3 h4 h5 h6]

theorem parseHexColor_three {c1 c2 c3 : Char}
    (h1 : isHexDigit c1 = true) (h2 : isHexDigit c2 = true)
    (h3 : isHexDigit c3 = true) :
    parseHexColor ('#' :: [c1, c2, c3]) =
      some (hexVal c1 * 17, hexVal c2 * 17, hexVal c3 * 17) := by
  have hlen : goLen ('#' :: [c1, c2, c3]) = 4 := by
    rw [goLen_cons, charBytes_of_lt (by decide), goLen_hex_cons _ h1,
      goLen_hex_cons _ h2, goLen_hex_cons _ h3, goLen_nil]
  have hv1 := hexVal_le c1
  have hv2 := hexVal_le c2
  have hv3 := hexVal_le c3
  unfold parseHexColor
  rw [if_neg (by omega), if_pos hlen, scan3_one h1 h2 h3, Option.map_some']
  have e1 : hexVal c1 * 17 % 256 = hexVal c1 * 17 := Nat.mod_eq_of_lt (by omega)
  have e2 : hexVal c2 * 17 % 256 = hexVal c2 * 17 := Nat.mod_eq_of_lt (by omega)
  have e3 : hexVal c3 * 17 % 256 = hexVal c3 * 17 := Nat.mod_eq_of_lt (by omega)
  rw [e1, e2, e3]

theorem parseColor_eq_some {v1 v2 v3 : Nat} {cs cs' : List Char}
    (hne : cs ≠ [])
    (hcs' : (if startsWithHash cs then cs else '#' :: cs) = cs')
    (hp : parseHexColor cs' = some (v1, v2, v3)) :
    parseColor cs = some (hexPad 2 v1 ++ hexPad 2 v2 ++ hexPad 2 v3) := by
  unfold parseColor
  rw [if_neg hne, hcs', hp]

theorem parseColor_eq_none {cs : List Char} (hne : cs ≠ [])
    (hp : parseHexColor (if startsWithHash cs then cs else '#' :: cs) = none) :
    parseColor cs = none := by
  unfold parseColor
  rw [if_neg hne, hp]

/-- The `%02x` encoding of the value of a pair of hexadecimal digits is
the lowercase form of the pair. -/
theorem hexPad_pair {c d : Char} (hc : isHexDigit c = true)
    (hd : isHexDigit d = true) :
    hexPad 2 (hexVal c * 16 + hexVal d) = [goLower c, goLower d] := by
  have h1 := hexVal_le c
  have h2 := hexVal_le d
  rw [hexPad_two (by omega)]
  have ediv : (hexVal c * 16 + hexVal d) / 16 = hexVal c := by omega
  have emod : (hexVal c * 16 + hexVal d) % 16 = hexVal d := by omega
  rw [ediv, emod, hexDigitChar_hexVal hc, hexDigitChar_hexVal hd]

/-- The `%02x` encoding of a nibble expanded by 17 is the lowercase digit
doubled. -/
theorem hexPad_nibble {c : Char} (hc : isHexDigit c = true) :
    hexPad 2 (hexVal c * 17) = [goLower c, goLower c] := by
  have h1 := hexVal_le c
  rw [hexPad_two (by omega)]
  have ediv : hexVal c * 17 / 16 = hexVal c := by omega
  have emod : hexVal c * 17 % 16 = hexVal c := by omega
  rw [ediv, emod, hexDigitChar_hexVal hc]

/-- Parsing a 6-digit color argument, with or without a leading `#`,
produces exactly the input digits in lowercase. -/
theorem parseColor_hex6 {c1 c2 c3 c4 c5 c6 : Char}
    (h1 : isHexDigit c1 = true) (h2 : isHexDigit c2 = true)
    (h3 : isHexDigit c3 = true) (h4 : isHexDigit c4 = true)
    (h5 : isHexDigit c5 = true) (h6 : isHexDigit c6 = true) :
    parseColor [c1, c2, c3, c4, c5, c6] =
      some ([c1, c2, c3, c4, c5, c6].map goLower) ∧
    parseColor ('#' :: [c1, c2, c3, c4, c5, c6]) =
      some ([c1, c2, c3, c4, c5, c6].map goLower) := by
  have hp := parseHexColor_six h1 h2 h3 h4 h5 h6
  have hout : hexPad 2 (hexVal c1 * 16 + hexVal c2) ++
      hexPad 2 (hexVal c3 * 16 + hexVal c4) ++ hexPad 2 (hexVal c5 * 16 + hexVal c6) =
      [c1, c2, c3, c4, c5, c6].map goLower := by
    rw [hexPad_pair h1 h2, hexPad_pair h3 h4, hexPad_pair h5 h6]
    simp
  constructor
  · have hnh : startsWithHash (c1 :: [c2, c3, c4, c5, c6]) = false :=
      startsWithHash_false _ (isHexDigit_props h1).2.2.1
    rw [parseColor_eq_some (by simp) (by rw [hnh]; simp) hp, hout]
  · rw [parseColor_eq_some (by simp) (by rw [show startsWithHash
      ('#' :: [c1, c2, c3, c4, c5, c6]) = true from rfl]; simp) hp, hout]

/-- Parsing a 3-digit color argument, with or without a leading `#`,
doubles each digit in lowercase. -/
theorem parseColor_hex3 {c1 c2 c3 : Char}
    (h1 : isHexDigit c1 = true) (h2 : isHexDigit c2 = true)
    (h3 : isHexDigit c3 = true) :
    parseColor [c1, c2, c3] =
      some [goLower c1, goLower c1, goLower c2, goLower c2, goLower c3, goLower c3] ∧
    parseColor ('#' :: [c1, c2, c3]) =
      some [goLower c1, goLower c1, goLower c2, goLower c2, goLower c3, goLower c3] := by
  have hp := parseHexColor_three h1 h2 h3
  have hout : hexPad 2 (hexVal c1 * 17) ++ hexPad 2 (hexVal c2 * 17) ++
      hexPad 2 (hexVal c3 * 17) =
      [goLower c1, goLower c1, goLower c2, goLower c2, goLower c3, goLower c3] := by
    rw [hexPad_nibble h1, hexPad_nibble h2, hexPad_nibble h3]
    simp
  constructor
  · have hnh : startsWithHash (c1 :: [c2, c3]) = false :=
      startsWithHash_false _ (isHexDigit_props h1).2.2.1
    rw [parseColor_eq_some (by simp) (by rw [hnh]; simp) hp, hout]
  · rw [parseColor_eq_some (by simp) (by rw [show startsWithHash
      ('#' :: [c1, c2, c3]) = true from rfl]; simp) hp, hout]

/-- A color argument offering a number of hexadecimal digits other than
3 or 6 is rejected. -/
theorem parseColor_wrong_length {cs : List Char}
    (h3 : colorDigitLen cs ≠ 3) (h6 : colorDigitLen cs ≠ 6) :
    parseColor cs = none := by
  cases cs with
  | nil => rfl
  | cons c t =>
    apply parseColor_eq_none (by simp)
    unfold colorDigitLen at h3 h6
    cases hh : startsWithHash (c :: t) with
    | true =>
      rw [hh] at h3 h6
      rw [if_pos rfl]
      simp only [if_true] at h3 h6
      have hb := charBytes_pos c
      have hlen : goLen (c :: t) ≥ 1 := by
        rw [goLen_cons]
        omega
      exact parseHexColor_wrong_length (by omega) (by omega)
    | false =>
      rw [hh] at h3 h6
      rw [if_neg (by simp)]
      rw [if_neg (by simp : ¬(false = true))] at h3 h6
      have hlen : goLen ('#' :: c :: t) = 1 + goLen (c :: t) := by
        rw [goLen_cons ('#'), charBytes_of_lt (by decide)]
      exact parseHexColor_wrong_length (by omega) (by omega)

theorem parseHexColor_le {cs : List Char} {r g b : Nat}
    (h : parseHexColor cs = some (r, g, b)) : r ≤ 255 ∧ g ≤ 255 ∧ b ≤ 255 := by
  unfold parseHexColor at h
  by_cases h7 : goLen cs = 7
  · rw [if_pos h7] at h
    exact scan3_le h
  · rw [if_neg h7] at h
    by_cases h4 : goLen cs = 4
    · rw [if_pos h4] at h
      cases hs : scan3 1 cs with
      | none =>
        rw [hs] at h
        exact absurd h (by simp)
      | some p =>
        rw [hs, Option.map_some'] at h
        simp only [Option.some.injEq, Prod.mk.injEq] at h
        obtain ⟨rfl, rfl, rfl⟩ := h
        exact ⟨Nat.le_of_lt_succ (Nat.mod_lt _ (by omega)),
          Nat.le_of_lt_succ (Nat.mod_lt _ (by omega)),
          Nat.le_of_lt_succ (Nat.mod_lt _ (by omega))⟩
    · rw [if_neg h4] at h
      exact absurd h (by simp)

/-- Every successful color parse yields exactly six lowercase
hexadecimal digits. -/
theorem parseColor_some_props {cs out : List Char}
    (h : parseColor cs = some out) :
    out.length = 6 ∧ out.all isLowerHex = true := by
  unfold parseColor at h
  by_cases hne : cs = []
  · rw [if_pos hne] at h
    exact absurd h (by simp)
  · rw [if_neg hne] at h
    cases hp : parseHexColor (if startsWithHash cs then cs else '#' :: cs) with
    | none =>
      rw [hp] at h
      exact absurd h (by simp)
    | some rgb =>
      rw [hp] at h
      obtain ⟨r, g, b⟩ := rgb
      simp only [Option.some.injEq] at h
      obtain ⟨hr, hg, hb⟩ := parseHexColor_le hp
      have lr : (hexDigits r).length ≤ 2 := hexDigits_length_le (by omega)
      have lg : (hexDigits g).length ≤ 2 := hexDigits_length_le (by omega)
      have lb : (hexDigits b).length ≤ 2 := hexDigits_length_le (by omega)
      subst h
      constructor
      · simp only [List.length_append, hexPad_length lr, hexPad_length lg,
          hexPad_length lb]
      · rw [List.all_append, List.all_append, hexPad_all_lower, hexPad_all_lower,
          hexPad_all_lower]
        rfl

theorem parseColor_some_hex {cs out : List Char}
    (h : parseColor cs = some out) : out.all isHexDigit = true := by
  have hl := (parseColor_some_props h).2
  rw [List.all_eq_true] at hl ⊢
  exact fun c hc => isHexDigit_of_isLowerHex (hl c hc)

/-! Facts about parseRate and parseBrightness. -/

theorem atoi_nil : atoi [] = none := rfl

theorem parseRate_default : parseRate [] = some (hexPad 4 10000) := by
  unfold parseRate
  rw [if_pos rfl]

theorem parseRate_some_of_atoi {cs : List Char} {v : Int} (hne : cs ≠ [])
    (ha : atoi cs = some v) (hlo : 100 ≤ v) (hhi : v ≤ 60000) :
    parseRate cs = some (hexPad 4 v.toNat) := by
  unfold parseRate
  rw [if_neg hne, ha]
  show (if v < 100 ∨ v > 60000 then none else some (hexPad 4 v.toNat)) = _
  rw [if_neg (by omega)]

theorem parseRate_none_of_atoi_none {cs : List Char} (hne : cs ≠ [])
    (ha : atoi cs = none) : parseRate cs = none := by
  unfold parseRate
  rw [if_neg hne, ha]

theorem parseRate_none_of_range {cs : List Char} {v : Int} (ha : atoi cs = some v)
    (hv : v < 100 ∨ 60000 < v) : parseRate cs = none := by
  have hne : cs ≠ [] := by
    intro h
    rw [h, atoi_nil] at ha
    exact Option.noConfusion ha
  unfold parseRate
  rw [if_neg hne, ha]
  show (if v < 100 ∨ v > 60000 then none else some (hexPad 4 v.toNat)) = none
  rw [if_pos (by omega)]

theorem parseRate_some_props {cs r : List Char} (h : parseRate cs = some r) :
    r.length = 4 ∧ r.all isLowerHex = true := by
  have h16 : (16 : Nat) ^ (3 + 1) = 65536 := by norm_num
  unfold parseRate at h
  by_cases hne : cs = []
  · rw [if_pos hne] at h
    simp only [Option.some.injEq] at h
    subst h
    exact ⟨hexPad_length (hexDigits_length_le (by omega)), hexPad_all_lower _ _⟩
  · rw [if_neg hne] at h
    cases ha : atoi cs with
    | none =>
      rw [ha] at h
      exact absurd h (by simp)
    | some v =>
      rw [ha] at h
      revert h
      show (if v < 100 ∨ v > 60000 then none else some (hexPad 4 v.toNat)) = some r → _
      intro h
      by_cases hr : v < 100 ∨ v > 60000
      · rw [if_pos hr] at h
        exact absurd h (by simp)
      · rw [if_neg hr] at h
        simp only [Option.some.injEq] at h
        subst h
        have hv : v.toNat < 65536 := by omega
        exact ⟨hexPad_length (hexDigits_length_le (by omega)), hexPad_all_lower _ _⟩

theorem parseRate_some_hex {cs r : List Char} (h : parseRate cs = some r) :
    r.all isHexDigit = true := by
  have hl := (parseRate_some_props h).2
  rw [List.all_eq_true] at hl ⊢
  exact fun c hc => isHexDigit_of_isLowerHex (hl c hc)

theorem parseBrightness_default : parseBrightness [] = some (hexPad 2 100) := by
  unfold parseBrightness
  rw [if_pos rfl]

theorem parseBrightness_some_of_atoi {cs : List Char} {v : Int} (hne : cs ≠ [])
    (ha : atoi cs = some v) (hlo : 1 ≤ v) (hhi : v ≤ 100) :
    parseBrightness cs = some (hexPad 2 v.toNat) := by
  unfold parseBrightness
  rw [if_neg hne, ha]
  show (if v < 1 ∨ v > 100 then none else some (hexPad 2 v.toNat)) = _
  rw [if_neg (by omega)]

theorem parseBrightness_none_of_atoi_none {cs : List Char} (hne : cs ≠ [])
    (ha : atoi cs = none) : parseBrightness cs = none := by
  unfold parseBrightness
  rw [if_neg hne, ha]

theorem parseBrightness_none_of_range {cs : List Char} {v : Int}
    (ha : atoi cs = some v) (hv : v < 1 ∨ 100 < v) : parseBrightness cs = none := by
  have hne : cs ≠ [] := by
    intro h
    rw [h, atoi_nil] at ha
    exact Option.noConfusion ha
  unfold parseBrightness
  rw [if_neg hne, ha]
  show (if v < 1 ∨ v > 100 then none else some (hexPad 2 v.toNat)) = none
  rw [if_pos (by omega)]

theorem parseBrightness_some_props {cs r : List Char} (h : parseBrightness cs = some r) :
    r.length = 2 ∧ r.all isLowerHex = true := by
  have h16 : (16 : Nat) ^ (1 + 1) = 256 := by norm_num
  unfold parseBrightness at h
  by_cases hne : cs = []
  · rw [if_pos hne] at h
    simp only [Option.some.injEq] at h
    subst h
    exact ⟨hexPad_length (hexDigits_length_le (by omega)), hexPad_all_lower _ _⟩
  · rw [if_neg hne] at h
    cases ha : atoi cs with
    | none =>
      rw [ha] at h
      exact absurd h (by simp)
    | some v =>
      rw [ha] at h
      revert h
      show (if v < 1 ∨ v > 100 then none else some (hexPad 2 v.toNat)) = some r → _
      intro h
      by_cases hr : v < 1 ∨ v > 100
      · rw [if_pos hr] at h
        exact absurd h (by simp)
      · rw [if_neg hr] at h
        simp only [Option.some.injEq] at h
        subst h
        have hv : v.toNat < 256 := by omega
        exact ⟨hexPad_length (hexDigits_length_le (by omega)), hexPad_all_lower _ _⟩

theorem parseBrightness_some_hex {cs r : List Char} (h : parseBrightness cs = some r) :
    r.all isHexDigit = true := by
  have hl := (parseBrightness_some_props h).2
  rw [List.all_eq_true] at hl ⊢
  exact fun c hc => isHexDigit_of_isLowerHex (hl c hc)

theorem parseToggle_some_props {cs t : List Char} (h : parseToggle cs = some t) :
    t.length = 2 ∧ t.all isHexDigit = true := by
  unfold parseToggle at h
  by_cases h1 : cs = "on".data
  · rw [if_pos h1] at h
    simp only [Option.some.injEq] at h
    subst h
    exact ⟨rfl, by decide⟩
  · rw [if_neg h1] at h
    by_cases h2 : cs = "off".data
    · rw [if_pos h2] at h
      simp only [Option.some.injEq] at h
      subst h
      exact ⟨rfl, by decide⟩
    · rw [if_neg h2] at h
      exact absurd h (by simp)

/-! Facts about hex decoding and the command pipeline. -/

theorem hexDecode_ok : ∀ cs : List Char, cs.all isHexDigit = true →
    cs.length % 2 = 0 → ∃ bs, hexDecode cs = some bs ∧ bs.length = cs.length / 2
  | [] => fun _ _ => ⟨[], rfl, rfl⟩
  | [_] => fun _ h => by simp at h
  | c1 :: c2 :: rest => fun hall hlen => by
    rw [List.all_cons, List.all_cons, Bool.and_eq_true, Bool.and_eq_true] at hall
    obtain ⟨h1, h2, hrest⟩ := hall
    have hlen' : rest.length % 2 = 0 := by
      simp only [List.length_cons] at hlen
      omega
    obtain ⟨bs, hbs, hl⟩ := hexDecode_ok rest hrest hlen'
    refine ⟨(hexVal c1 * 16 + hexVal c2) :: bs, ?_, ?_⟩
    · unfold hexDecode
      rw [h1, h2, if_pos (by decide : ((true && true) = true)), hbs, Option.map_some']
    · simp only [List.length_cons, hl]
      omega

theorem envelope_all_hex {body : List Char} (h : body.all isHexDigit = true) :
    (envelope body).all isHexDigit = true := by
  have hA : ("11ff0e".data).all isHexDigit = true := by decide
  have hB : ("000000000000".data).all isHexDigit = true := by decide
  unfold envelope
  rw [List.all_append, List.all_append, hA, h, hB]
  rfl

theorem envelope_length (body : List Char) :
    (envelope body).length = body.length + 18 := by
  unfold envelope
  rw [List.length_append, List.length_append,
    show ("11ff0e".data).length = 6 from rfl,
    show ("000000000000".data).length = 12 from rfl]
  omega

/-- Under the field-width invariants, the enveloped string always decodes:
the fatal branch of sendCommand is unreachable and the payload is
20 bytes. -/
theorem sendCommand_ok {body : List Char} (hlen : body.length = 22)
    (hhex : body.all isHexDigit = true) :
    ∃ ct, sendCommand body = some ct ∧ ct.payload.length = 20 := by
  have hel : (envelope body).length = 40 := by
    rw [envelope_length, hlen]
  obtain ⟨bs, hbs, hl⟩ := hexDecode_ok (envelope body) (envelope_all_hex hhex)
    (by rw [hel])
  refine ⟨⟨0x21, 0x09, 0x0211, 0x01, bs⟩, ?_, ?_⟩
  · unfold sendCommand
    rw [hbs]
  · show bs.length = 20
    rw [hl, hel]

theorem sendCommand_fields {body : List Char} {ct : ControlTransfer}
    (h : sendCommand body = some ct) :
    ct.requestType = 0x21 ∧ ct.request = 0x09 ∧ ct.value = 0x0211 ∧ ct.index = 0x01 := by
  unfold sendCommand at h
  cases hd : hexDecode (envelope body) with
  | none =>
    rw [hd] at h
    exact absurd h (by simp)
  | some payload =>
    rw [hd] at h
    simp only [Option.some.injEq] at h
    subst h
    exact ⟨rfl, rfl, rfl, rfl⟩

theorem sendCommand_payload {body : List Char} {ct : ControlTransfer}
    (h : sendCommand body = some ct) :
    hexDecode (envelope body) = some ct.payload := by
  unfold sendCommand at h
  cases hd : hexDecode (envelope body) with
  | none =>
    rw [hd] at h
    exact absurd h (by simp)
  | some payload =>
    rw [hd] at h
    simp only [Option.some.injEq] at h
    subst h
    rfl

/-! Unfolding facts for the four mode handlers and the dispatcher. -/

theorem setSolid_eq {a c : List Char} (h : parseColor a = some c) :
    setSolid a = sendCommand ("3b0001".data ++ c ++ "0000000000".data) := by
  unfold setSolid
  rw [h]

theorem setSolid_none {a : List Char} (h : parseColor a = none) :
    setSolid a = none := by
  unfold setSolid
  rw [h]

theorem setCycle_eq {a1 a2 r b : List Char} (h1 : parseRate a1 = some r)
    (h2 : parseBrightness a2 = some b) :
    setCycle a1 a2 = sendCommand ("3b0002".data ++ "0000000000".data ++ r ++ b) := by
  unfold setCycle
  rw [h1, h2]

theorem setCycle_none {a1 a2 : List Char}
    (h : parseRate a1 = none ∨ parseBrightness a2 = none) :
    setCycle a1 a2 = none := by
  unfold setCycle
  rcases h with h | h
  · rw [h]
  · cases hr : parseRate a1 with
    | none => rfl
    | some r => rw [h]

theorem setBreathe_eq {a1 a2 a3 c r b : List Char} (h1 : parseColor a1 = some c)
    (h2 : parseRate a2 = some r) (h3 : parseBrightness a3 = some b) :
    setBreathe a1 a2 a3 =
      sendCommand ("3b0003".data ++ c ++ r ++ "00".data ++ b ++ "00".data) := by
  unfold setBreathe
  rw [h1, h2, h3]

theorem setBreathe_none {a1 a2 a3 : List Char}
    (h : parseColor a1 = none ∨ parseRate a2 = none ∨ parseBrightness a3 = none) :
    setBreathe a1 a2 a3 = none := by
  unfold setBreathe
  rcases h with h | h | h
  · rw [h]
  · cases hc : parseColor a1 with
    | none => rfl
    | some c => rw [h]
  · cases hc : parseColor a1 with
    | none => rfl
    | some c =>
      cases hr : parseRate a2 with
      | none => rfl
      | some r => rw [h]

theorem setIntro_eq {a t : List Char} (h : parseToggle a = some t) :
    setIntro a = sendCommand ("5b0001".data ++ t ++ "00000000000000".data) := by
  unfold setIntro
  rw [h]

theorem setIntro_none {a : List Char} (h : parseToggle a = none) :
    setIntro a = none := by
  unfold setIntro
  rw [h]

theorem runGled_solid (a1 a2 a3 : List Char) :
    runGled "solid".data a1 a2 a3 = setSolid a1 := by
  unfold runGled
  rw [if_pos rfl]

theorem runGled_cycle (a1 a2 a3 : List Char) :
    runGled "cycle".data a1 a2 a3 = setCycle a1 a2 := by
  unfold runGled
  rw [if_neg (by decide), if_pos rfl]

theorem runGled_breathe (a1 a2 a3 : List Char) :
    runGled "breathe".data a1 a2 a3 = setBreathe a1 a2 a3 := by
  unfold runGled
  rw [if_neg (by decide), if_neg (by decide), if_pos rfl]

theorem runGled_intro (a1 a2 a3 : List Char) :
    runGled "intro".data a1 a2 a3 = setIntro a1 := by
  unfold runGled
  rw [if_neg (by decide), if_neg (by decide), if_neg (by decide), if_pos rfl]

theorem runGled_unknown {m : List Char} (a1 a2 a3 : List Char)
    (h1 : m ≠ "solid".data) (h2 : m ≠ "cycle".data)
    (h3 : m ≠ "breathe".data) (h4 : m ≠ "intro".data) :
    runGled m a1 a2 a3 = none := by
  unfold runGled
  rw [if_neg h1, if_neg h2, if_neg h3, if_neg h4]

theorem setSolid_some {a : List Char} {ct : ControlTransfer}
    (h : setSolid a = some ct) : ∃ body, sendCommand body = some ct := by
  unfold setSolid at h
  cases hp : parseColor a with
  | none =>
    rw [hp] at h
    exact absurd h (by simp)
  | some c =>
    rw [hp] at h
    exact ⟨_, h⟩

theorem setCycle_some {a1 a2 : List Char} {ct : ControlTransfer}
    (h : setCycle a1 a2 = some ct) : ∃ body, sendCommand body = some ct := by
  unfold setCycle at h
  cases hr : parseRate a1 with
  | none =>
    rw [hr] at h
    exact absurd h (by simp)
  | some r =>
    rw [hr] at h
    cases hb : parseBrightness a2 with
    | none =>
      rw [hb] at h
      exact absurd h (by simp)
    | some b =>
      rw [hb] at h
      exact ⟨_, h⟩

theorem setBreathe_some {a1 a2 a3 : List Char} {ct : ControlTransfer}
    (h : setBreathe a1 a2 a3 = some ct) : ∃ body, sendCommand body = some ct := by
  unfold setBreathe at h
  cases hc : parseColor a1 with
  | none =>
    rw [hc] at h
    exact absurd h (by simp)
  | some c =>
    rw [hc] at h
    cases hr : parseRate a2 with
    | none =>
      rw [hr] at h
      exact absurd h (by simp)
    | some r =>
      rw [hr] at h
      cases hb : parseBrightness a3 with
      | none =>
        rw [hb] at h
        exact absurd h (by simp)
      | some b =>
        rw [hb] at h
        exact ⟨_, h⟩

theorem setIntro_some {a : List Char} {ct : ControlTransfer}
    (h : setIntro a = some ct) : ∃ body, sendCommand body = some ct := by
  unfold setIntro at h
  cases hp : parseToggle a with
  | none =>
    rw [hp] at h
    exact absurd h (by simp)
  | some t =>
    rw [hp] at h
    exact ⟨_, h⟩

/-- Every transfer the program issues comes out of sendCommand. -/
theorem runGled_some {m a1 a2 a3 : List Char} {ct : ControlTransfer}
    (h : runGled m a1 a2 a3 = some ct) : ∃ body, sendCommand body = some ct := by
  unfold runGled at h
  split_ifs at h
  · exact setSolid_some h
  · exact setCycle_some h
  · exact setBreathe_some h
  · exact setIntro_some h

theorem runGledDebug_some {d : Nat} {m a1 a2 a3 : List Char} {s : UsbSession}
    (h : runGledDebug d m a1 a2 a3 = some s) :
    s.debugLevel = d ∧ runGled m a1 a2 a3 = some s.transfer := by
  unfold runGledDebug at h
  cases hr : runGled m a1 a2 a3 with
  | none =>
    rw [hr] at h
    exact absurd h (by simp)
  | some t =>
    rw [hr] at h
    simp only [Option.some.injEq] at h
    subst h
    exact ⟨rfl, rfl⟩

/-! The claims. -/

/-- C1: for every mode invocation whose arguments pass validation, the
encoded command body is exactly the mode's template with the fixed-width
validated fields substituted (solid `3b0001<RRGGBB>0000000000`, cycle
`3b0002` ++ `0000000000` ++ rate ++ brightness, breathe
`3b0003<RRGGBB><rate>00<brightness>00`, intro
`5b0001<toggle>00000000000000`); with no rate or brightness argument,
cycle uses the defaults rate 10000 (`2710`) and brightness 100 (`64`). -/
theorem spec_C1 :
    (∀ a c : List Char, parseColor a = some c → c.length = 6 ∧
      setSolid a = sendCommand ("3b0001".data ++ c ++ "0000000000".data)) ∧
    (∀ a1 a2 r b : List Char, parseRate a1 = some r → parseBrightness a2 = some b →
      r.length = 4 ∧ b.length = 2 ∧
      setCycle a1 a2 = sendCommand ("3b0002".data ++ "0000000000".data ++ r ++ b)) ∧
    (∀ a1 a2 a3 c r b : List Char, parseColor a1 = some c → parseRate a2 = some r →
      parseBrightness a3 = some b →
      setBreathe a1 a2 a3 =
        sendCommand ("3b0003".data ++ c ++ r ++ "00".data ++ b ++ "00".data)) ∧
    (∀ a t : List Char, parseToggle a = some t → t.length = 2 ∧
      setIntro a = sendCommand ("5b0001".data ++ t ++ "00000000000000".data)) ∧
    parseRate [] = some "2710".data ∧
    parseBrightness [] = some "64".data ∧
    setCycle [] [] =
      sendCommand ("3b0002".data ++ "0000000000".data ++ "2710".data ++ "64".data) ∧
    setBreathe "f00".data "100".data "50".data =
      sendCommand "3b0003ff00000064003200".data := by
  refine ⟨fun a c h => ⟨(parseColor_some_props h).1, setSolid_eq h⟩,
    fun a1 a2 r b h1 h2 => ⟨(parseRate_some_props h1).1,
      (parseBrightness_some_props h2).1, setCycle_eq h1 h2⟩,
    fun a1 a2 a3 c r b h1 h2 h3 => setBreathe_eq h1 h2 h3,
    fun a t h => ⟨(parseToggle_some_props h).1, setIntro_eq h⟩,
    by decide, by decide, by decide, by decide⟩

theorem spec_C1_witness :
    parseColor "f00".data = some "ff0000".data ∧
    setSolid "f00".data =
      sendCommand ("3b0001".data ++ "ff0000".data ++ "0000000000".data) :=
  ⟨by decide, (spec_C1.1 "f00".data "ff0000".data (by decide)).2⟩

/-- C2 (amended): every transmitted command is the mode body substituted
into the invariant outer envelope `11ff0e<body>000000000000`, a fixed
9-byte header/footer; solid `ff0000` produces the full payload
`11ff0e3b0001ff00000000000000000000000000`. -/
theorem spec_C2 :
    (∀ (body : List Char) (ct : ControlTransfer), sendCommand body = some ct →
      hexDecode ("11ff0e".data ++ body ++ "000000000000".data) = some ct.payload) ∧
    ("11ff0e".data.length + "000000000000".data.length) / 2 = 9 ∧
    runGled "solid".data "ff0000".data [] [] =
      sendCommand "3b0001ff00000000000000".data ∧
    envelope "3b0001ff00000000000000".data =
      "11ff0e3b0001ff00000000000000000000000000".data ∧
    (runGled "solid".data "ff0000".data [] []).map ControlTransfer.payload =
      hexDecode "11ff0e3b0001ff00000000000000000000000000".data := by
  refine ⟨fun body ct h => sendCommand_payload h, by decide, ?_, by decide, by decide⟩
  rw [runGled_solid, setSolid_eq (show parseColor "ff0000".data = some "ff0000".data
    by decide)]
  decide

/-- C2, the claim as stated fails at a concrete input: `solid ff0000` does
not produce the spec's 38-character full payload
`11ff0e3b0001ff000000000000000000000000` (two zeros short), and the
header/footer of the envelope is not 7 bytes. -/
theorem spec_C2_cex :
    (runGled "solid".data "ff0000".data [] []).map ControlTransfer.payload ≠
      hexDecode "11ff0e3b0001ff000000000000000000000000".data ∧
    ("11ff0e".data.length + "000000000000".data.length) / 2 ≠ 7 := by
  decide

theorem spec_C2_witness :
    hexDecode ("11ff0e".data ++ "3b0001ff00000000000000".data ++
        "000000000000".data) =
      some (ControlTransfer.payload ⟨0x21, 0x09, 0x0211, 0x01,
        [17, 255, 14, 59, 0, 1, 255, 0, 0, 0, 0, 0, 0, 0, 0, 0, 0, 0, 0, 0]⟩) :=
  spec_C2.1 "3b0001ff00000000000000".data
    ⟨0x21, 0x09, 0x0211, 0x01,
      [17, 255, 14, 59, 0, 1, 255, 0, 0, 0, 0, 0, 0, 0, 0, 0, 0, 0, 0, 0]⟩
    (by decide)

/-- C3: color parsing accepts 3- or 6-hex-digit arguments with or without
a leading `#` and rejects every other digit count; on success the result
is exactly 6 lowercase hexadecimal digits, and a 6-digit argument
round-trips to its own digits lowercased. -/
theorem spec_C3 :
    (∀ c1 c2 c3 c4 c5 c6 : Char, isHexDigit c1 = true → isHexDigit c2 = true →
      isHexDigit c3 = true → isHexDigit c4 = true → isHexDigit c5 = true →
      isHexDigit c6 = true →
      parseColor [c1, c2, c3, c4, c5, c6] =
        some ([c1, c2, c3, c4, c5, c6].map goLower) ∧
      parseColor ('#' :: [c1, c2, c3, c4, c5, c6]) =
        some ([c1, c2, c3, c4, c5, c6].map goLower)) ∧
    (∀ c1 c2 c3 : Char, isHexDigit c1 = true → isHexDigit c2 = true →
      isHexDigit c3 = true →
      ∃ out, parseColor [c1, c2, c3] = some out ∧
        parseColor ('#' :: [c1, c2, c3]) = some out) ∧
    (∀ cs : List Char, colorDigitLen cs ≠ 3 → colorDigitLen cs ≠ 6 →
      parseColor cs = none) ∧
    (∀ cs out : List Char, parseColor cs = some out →
      out.length = 6 ∧ out.all isLowerHex = true) := by
  refine ⟨fun c1 c2 c3 c4 c5 c6 h1 h2 h3 h4 h5 h6 =>
      parseColor_hex6 h1 h2 h3 h4 h5 h6,
    fun c1 c2 c3 h1 h2 h3 => ⟨_, parseColor_hex3 h1 h2 h3⟩,
    fun cs h3 h6 => parseColor_wrong_length h3 h6,
    fun cs out h => parseColor_some_props h⟩

theorem spec_C3_witness :
    (parseColor ['A', 'b', '0', '9', 'f', 'F'] =
        some (['A', 'b', '0', '9', 'f', 'F'].map goLower) ∧
      parseColor ('#' :: ['A', 'b', '0', '9', 'f', 'F']) =
        some (['A', 'b', '0', '9', 'f', 'F'].map goLower)) ∧
    parseColor ['f', 'f', '0', '0'] = none :=
  ⟨spec_C3.1 'A' 'b' '0' '9' 'f' 'F' (by decide) (by decide) (by decide)
      (by decide) (by decide) (by decide),
    spec_C3.2.2.1 ['f', 'f', '0', '0'] (by decide) (by decide)⟩

/-- C4: in the 3-digit color form each nibble expands to the channel
value nibble*17, and the result agrees with the doubled-digit 6-digit
form. -/
theorem spec_C4 :
    ∀ c1 c2 c3 : Char, isHexDigit c1 = true → isHexDigit c2 = true →
      isHexDigit c3 = true →
      parseHexColor ('#' :: [c1, c2, c3]) =
        some (hexVal c1 * 17, hexVal c2 * 17, hexVal c3 * 17) ∧
      parseColor [c1, c2, c3] = parseColor [c1, c1, c2, c2, c3, c3] := by
  intro c1 c2 c3 h1 h2 h3
  refine ⟨parseHexColor_three h1 h2 h3, ?_⟩
  rw [(parseColor_hex3 h1 h2 h3).1, (parseColor_hex6 h1 h1 h2 h2 h3 h3).1]
  simp

theorem spec_C4_witness :
    parseHexColor ('#' :: ['f', '0', '8']) = some (15 * 17, 0 * 17, 8 * 17) ∧
    parseColor ['f', '0', '8'] = parseColor ['f', 'f', '0', '0', '8', '8'] := by
  have h := spec_C4 'f' '0' '8' (by decide) (by decide) (by decide)
  refine ⟨?_, h.2⟩
  rw [h.1]
  decide

/-- C5: rate parsing maps the empty argument to the default 10000
(`2710`); otherwise it parses a base-10 integer, fails outside
[100, 60000], and encodes every in-range integer as the 4-digit
zero-padded lowercase base-16 representation of that integer. -/
theorem spec_C5 :
    parseRate [] = some (hexPad 4 10000) ∧
    hexPad 4 10000 = "2710".data ∧
    (∀ n : Nat, 100 ≤ n → n ≤ 60000 →
      parseRate (decRepr n) = some (hexPad 4 n) ∧
      (hexPad 4 n).length = 4 ∧ (hexPad 4 n).all isLowerHex = true ∧
      hexValue (hexPad 4 n) = n) ∧
    (∀ cs : List Char, cs ≠ [] → atoi cs = none → parseRate cs = none) ∧
    (∀ (cs : List Char) (v : Int), atoi cs = some v → (v < 100 ∨ 60000 < v) →
      parseRate cs = none) := by
  have h16 : (16 : Nat) ^ (3 + 1) = 65536 := by norm_num
  refine ⟨parseRate_default, by decide, ?_,
    fun cs hne ha => parseRate_none_of_atoi_none hne ha,
    fun cs v ha hv => parseRate_none_of_range ha hv⟩
  intro n h1 h2
  have ha : atoi (decRepr n) = some (n : Int) := atoi_decRepr (by omega)
  have hp : parseRate (decRepr n) = some (hexPad 4 ((n : Int)).toNat) :=
    parseRate_some_of_atoi (decRepr_ne_nil n) ha (by omega) (by omega)
  rw [show ((n : Int)).toNat = n by omega] at hp
  exact ⟨hp, hexPad_length (hexDigits_length_le (by omega)),
    hexPad_all_lower _ _, hexValue_hexPad _ _⟩

theorem spec_C5_witness :
    parseRate (decRepr 12345) = some (hexPad 4 12345) ∧
    (hexPad 4 12345).length = 4 ∧ (hexPad 4 12345).all isLowerHex = true ∧
    hexValue (hexPad 4 12345) = 12345 :=
  spec_C5.2.2.1 12345 (by decide) (by decide)

/-- C6: brightness parsing maps the empty argument to the default 100
(`64`); otherwise it parses a base-10 integer and fails outside [1, 100]
— in particular the input 0 is rejected even though the usage text
advertises the range 0-100 — and encodes every accepted value as a
2-digit zero-padded hexadecimal string. -/
theorem spec_C6 :
    parseBrightness [] = some (hexPad 2 100) ∧
    hexPad 2 100 = "64".data ∧
    (∀ n : Nat, 1 ≤ n → n ≤ 100 →
      parseBrightness (decRepr n) = some (hexPad 2 n) ∧
      (hexPad 2 n).length = 2 ∧ (hexPad 2 n).all isLowerHex = true ∧
      hexValue (hexPad 2 n) = n) ∧
    (∀ cs : List Char, cs ≠ [] → atoi cs = none → parseBrightness cs = none) ∧
    (∀ (cs : List Char) (v : Int), atoi cs = some v → (v < 1 ∨ 100 < v) →
      parseBrightness cs = none) ∧
    parseBrightness (decRepr 0) = none ∧
    "0-100".data <:+: usageText.data := by
  have h16 : (16 : Nat) ^ (1 + 1) = 256 := by norm_num
  refine ⟨parseBrightness_default, by decide, ?_,
    fun cs hne ha => parseBrightness_none_of_atoi_none hne ha,
    fun cs v ha hv => parseBrightness_none_of_range ha hv,
    by decide, by decide⟩
  intro n h1 h2
  have ha : atoi (decRepr n) = some (n : Int) := atoi_decRepr (by omega)
  have hp : parseBrightness (decRepr n) = some (hexPad 2 ((n : Int)).toNat) :=
    parseBrightness_some_of_atoi (decRepr_ne_nil n) ha (by omega) (by omega)
  rw [show ((n : Int)).toNat = n by omega] at hp
  exact ⟨hp, hexPad_length (hexDigits_length_le (by omega)),
    hexPad_all_lower _ _, hexValue_hexPad _ _⟩

theorem spec_C6_witness :
    parseBrightness (decRepr 50) = some (hexPad 2 50) ∧
    (hexPad 2 50).length = 2 ∧ (hexPad 2 50).all isLowerHex = true ∧
    hexValue (hexPad 2 50) = 50 :=
  spec_C6.2.2.1 50 (by decide) (by decide)

/-- C7: an unknown mode or a failing argument parse ends the run with no
transfer: the program result is `none` (the model of the usage print and
the nonzero fatal exit), and in particular `intro maybe` attempts no
transfer. -/
theorem spec_C7 :
    (∀ m a1 a2 a3 : List Char, m ≠ "solid".data → m ≠ "cycle".data →
      m ≠ "breathe".data → m ≠ "intro".data → runGled m a1 a2 a3 = none) ∧
    (∀ a1 a2 a3 : List Char, parseColor a1 = none →
      runGled "solid".data a1 a2 a3 = none) ∧
    (∀ a1 a2 a3 : List Char, parseRate a1 = none ∨ parseBrightness a2 = none →
      runGled "cycle".data a1 a2 a3 = none) ∧
    (∀ a1 a2 a3 : List Char,
      parseColor a1 = none ∨ parseRate a2 = none ∨ parseBrightness a3 = none →
      runGled "breathe".data a1 a2 a3 = none) ∧
    (∀ a1 a2 a3 : List Char, parseToggle a1 = none →
      runGled "intro".data a1 a2 a3 = none) ∧
    runGled "intro".data "maybe".data [] [] = none := by
  refine ⟨fun m a1 a2 a3 h1 h2 h3 h4 => runGled_unknown a1 a2 a3 h1 h2 h3 h4,
    fun a1 a2 a3 h => ?_, fun a1 a2 a3 h => ?_, fun a1 a2 a3 h => ?_,
    fun a1 a2 a3 h => ?_, by decide⟩
  · rw [runGled_solid, setSolid_none h]
  · rw [runGled_cycle, setCycle_none h]
  · rw [runGled_breathe, setBreathe_none h]
  · rw [runGled_intro, setIntro_none h]

theorem spec_C7_witness :
    runGled "flash".data "ff0000".data [] [] = none ∧
    runGled "solid".data "zz0000".data [] [] = none :=
  ⟨spec_C7.1 "flash".data "ff0000".data [] [] (by decide) (by decide) (by decide)
      (by decide),
    spec_C7.2.1 "zz0000".data [] [] (by decide)⟩

/-- C8: whenever every argument of a mode validates, the enveloped
hexadecimal string decodes — the hex-decoding failure branch of
sendCommand is unreachable — and the transfer carries the fixed-size
20-byte payload. -/
theorem spec_C8 :
    (∀ a c : List Char, parseColor a = some c →
      ∃ ct, setSolid a = some ct ∧ ct.payload.length = 20) ∧
    (∀ a1 a2 r b : List Char, parseRate a1 = some r → parseBrightness a2 = some b →
      ∃ ct, setCycle a1 a2 = some ct ∧ ct.payload.length = 20) ∧
    (∀ a1 a2 a3 c r b : List Char, parseColor a1 = some c → parseRate a2 = some r →
      parseBrightness a3 = some b →
      ∃ ct, setBreathe a1 a2 a3 = some ct ∧ ct.payload.length = 20) ∧
    (∀ a t : List Char, parseToggle a = some t →
      ∃ ct, setIntro a = some ct ∧ ct.payload.length = 20) := by
  refine ⟨?_, ?_, ?_, ?_⟩
  · intro a c h
    obtain ⟨hcl, -⟩ := parseColor_some_props h
    have hch := parseColor_some_hex h
    have hbl : ("3b0001".data ++ c ++ "0000000000".data).length = 22 := by
      rw [List.length_append, List.length_append, hcl]
      rfl
    have hbh : ("3b0001".data ++ c ++ "0000000000".data).all isHexDigit = true := by
      rw [List.all_append, List.all_append, hch]
      decide
    obtain ⟨ct, hct, hl⟩ := sendCommand_ok hbl hbh
    exact ⟨ct, by rw [setSolid_eq h]; exact hct, hl⟩
  · intro a1 a2 r b h1 h2
    obtain ⟨hrl, -⟩ := parseRate_some_props h1
    obtain ⟨hbl2, -⟩ := parseBrightness_some_props h2
    have hrh := parseRate_some_hex h1
    have hbh2 := parseBrightness_some_hex h2
    have hbl : ("3b0002".data ++ "0000000000".data ++ r ++ b).length = 22 := by
      rw [List.length_append, List.length_append, List.length_append, hrl, hbl2]
      rfl
    have hbh : ("3b0002".data ++ "0000000000".data ++ r ++ b).all isHexDigit = true := by
      rw [List.all_append, List.all_append, List.all_append, hrh, hbh2]
      decide
    obtain ⟨ct, hct, hl⟩ := sendCommand_ok hbl hbh
    exact ⟨ct, by rw [setCycle_eq h1 h2]; exact hct, hl⟩
  · intro a1 a2 a3 c r b h1 h2 h3
    obtain ⟨hcl, -⟩ := parseColor_some_props h1
    obtain ⟨hrl, -⟩ := parseRate_some_props h2
    obtain ⟨hbl3, -⟩ := parseBrightness_some_props h3
    have hch := parseColor_some_hex h1
    have hrh := parseRate_some_hex h2
    have hbh3 := parseBrightness_some_hex h3
    have hbl : ("3b0003".data ++ c ++ r ++ "00".data ++ b ++ "00".data).length = 22 := by
      rw [List.length_append, List.length_append, List.length_append,
        List.length_append, List.length_append, hcl, hrl, hbl3]
      rfl
    have hbh : ("3b0003".data ++ c ++ r ++ "00".data ++ b ++ "00".data).all
        isHexDigit = true := by
      rw [List.all_append, List.all_append, List.all_append, List.all_append,
        List.all_append, hch, hrh, hbh3]
      decide
    obtain ⟨ct, hct, hl⟩ := sendCommand_ok hbl hbh
    exact ⟨ct, by rw [setBreathe_eq h1 h2 h3]; exact hct, hl⟩
  · intro a t h
    obtain ⟨htl, hth⟩ := parseToggle_some_props h
    have hbl : ("5b0001".data ++ t ++ "00000000000000".data).length = 22 := by
      rw [List.length_append, List.length_append, htl]
      rfl
    have hbh : ("5b0001".data ++ t ++ "00000000000000".data).all isHexDigit = true := by
      rw [List.all_append, List.all_append, hth]
      decide
    obtain ⟨ct, hct, hl⟩ := sendCommand_ok hbl hbh
    exact ⟨ct, by rw [setIntro_eq h]; exact hct, hl⟩

theorem spec_C8_witness :
    ∃ ct, setSolid "ff0000".data = some ct ∧ ct.payload.length = 20 :=
  spec_C8.1 "ff0000".data "ff0000".data (by decide)

/-- C9: toggle parsing maps exactly "on" to "01" and exactly "off" to
"02", and fails on every other input. -/
theorem spec_C9 :
    parseToggle "on".data = some "01".data ∧
    parseToggle "off".data = some "02".data ∧
    ∀ cs : List Char, cs ≠ "on".data → cs ≠ "off".data → parseToggle cs = none := by
  refine ⟨by decide, by decide, fun cs h1 h2 => ?_⟩
  unfold parseToggle
  rw [if_neg h1, if_neg h2]

theorem spec_C9_witness : parseToggle "maybe".data = none :=
  spec_C9.2.2 "maybe".data (by decide) (by decide)

/-- C10: the transfer — payload bytes and the fixed parameters 0x21,
0x09, 0x0211, 0x01 — depends only on the mode and argument strings; the
-debug flag changes only the recorded diagnostic verbosity level. -/
theorem spec_C10 :
    (∀ (d1 d2 : Nat) (m a1 a2 a3 : List Char),
      (runGledDebug d1 m a1 a2 a3).map UsbSession.transfer =
        (runGledDebug d2 m a1 a2 a3).map UsbSession.transfer) ∧
    (∀ (d : Nat) (m a1 a2 a3 : List Char) (s : UsbSession),
      runGledDebug d m a1 a2 a3 = some s →
        s.debugLevel = d ∧ s.transfer.requestType = 0x21 ∧
        s.transfer.request = 0x09 ∧ s.transfer.value = 0x0211 ∧
        s.transfer.index = 0x01) := by
  constructor
  · intro d1 d2 m a1 a2 a3
    unfold runGledDebug
    cases runGled m a1 a2 a3 with
    | none => rfl
    | some t => rfl
  · intro d m a1 a2 a3 s h
    obtain ⟨hd, ht⟩ := runGledDebug_some h
    obtain ⟨body, hb⟩ := runGled_some ht
    obtain ⟨f1, f2, f3, f4⟩ := sendCommand_fields hb
    exact ⟨hd, f1, f2, f3, f4⟩

theorem spec_C10_witness :
    sampleSession.debugLevel = 3 ∧ sampleSession.transfer.requestType = 0x21 ∧
    sampleSession.transfer.request = 0x09 ∧ sampleSession.transfer.value = 0x0211 ∧
    sampleSession.transfer.index = 0x01 :=
  spec_C10.2 3 "intro".data "on".data [] [] sampleSession (by decide)

end Gled
